import Mathlib

/-!
Verification of the seneca-promisified adapter library.

The development shallowly embeds the two source files
(`src/packages/seneca-promisified-core/src/index.js` and the compiled
`src/index.js`) into Lean:

* JavaScript runtime values relevant to the adapter are modelled by `JSVal`
  (null, undefined, booleans, numbers, strings, Error instances, opaque plain
  objects, and thenables that settle by fulfilment or rejection).
* Promise settlements are explicit data (`PromiseResult`, `EntSettle`).
* A JavaScript object's enumerable own data properties are modelled as an
  association list `Obj` with JS assignment/deletion semantics
  (`setKey`, `deleteKey`).
* Each adapter function is translated statement by statement; what a function
  passes to the delegate framework is reified as data (`DelegateCall`,
  `HandlerInvocation`, `SymbolicCall`, `UseCallArg`) so that argument
  forwarding and call ordering are provable facts.
-/

namespace SenecaP

/-- Model of the JavaScript values the adapter inspects.  A thenable is a
value with a function-valued `then` property; `thenableF v` settles by
fulfilling with `v`, `thenableR e` settles by rejecting with `e`. -/
inductive JSVal where
  | null
  | undefined
  | bool (b : Bool)
  | num (n : Int)
  | str (s : String)
  | error (msg : String)
  | plainObj (id : Nat)
  | thenableF (v : JSVal)
  | thenableR (e : JSVal)
deriving DecidableEq

/-- JavaScript truthiness, as tested by `if(err)`. -/
def truthy : JSVal → Bool
  | .null => false
  | .undefined => false
  | .bool b => b
  | .num n => n != 0
  | .str s => s != ""
  | _ => true

/-- `typeof res.then === 'function'` for values on which the property read
does not throw. -/
def isThenable : JSVal → Bool
  | .thenableF _ => true
  | .thenableR _ => true
  | _ => false

/-- `res instanceof Error`. -/
def isError : JSVal → Bool
  | .error _ => true
  | _ => false

/-- How a promise produced by the adapter settles. -/
inductive PromiseResult where
  | resolvedWith (v : JSVal)
  | rejectedWith (v : JSVal)
deriving DecidableEq

/-- `completesPromise` from both source files: the continuation
`(err, res) => { if(err) return reject(err); resolve(res); }`. -/
def completesPromise (err res : JSVal) : PromiseResult :=
  if truthy err then .rejectedWith err else .resolvedWith res

/-- Outcome of running the wrapped handler body: either the delegate's
completion continuation `done` was called with `(err, res)`, or the body
threw before reaching `done` (reading `.then` of null/undefined throws a
TypeError; the error branch references the out-of-scope variable `err`,
which throws a ReferenceError). -/
inductive HandlerOutcome where
  | doneCalled (err res : JSVal)
  | typeError
  | referenceError
deriving DecidableEq

/-- `SenecaPromisified.prototype._handleResult(res, done)`:
`if(typeof res.then === 'function') res.then(done.bind(null, null), done);
else if(res instanceof Error) done(err); else done(null, res);`.
Reading `res.then` on null/undefined throws; the `instanceof Error` branch
calls `done(err)` where `err` is not in scope. -/
def _handleResult : JSVal → HandlerOutcome
  | .null => .typeError
  | .undefined => .typeError
  | .thenableF v => .doneCalled .null v
  | .thenableR e => .doneCalled e .undefined
  | .error _ => .referenceError
  | r => .doneCalled .null r

/-- An opaque delegate seneca instance (a native framework context). -/
structure NativeSeneca where
  id : Nat
deriving DecidableEq

/-- The wrapped context: `new SenecaPromisified(seneca)` stores the delegate
on `_seneca`. -/
structure SenecaPromisified where
  seneca : NativeSeneca
deriving DecidableEq

/-- `create(seneca)`: `return new SenecaPromisified(seneca);`. -/
def create (s : NativeSeneca) : SenecaPromisified :=
  ⟨s⟩

/-- `act(...args)`: forwards to `this._seneca.act` with a
`completesPromise`-bridged continuation appended.  The delegate's behaviour
is a parameter `actCB` giving the `(err, res)` pair its continuation
receives. -/
def act (ctx : SenecaPromisified) (actCB : NativeSeneca → JSVal → JSVal × JSVal)
    (args : JSVal) : PromiseResult :=
  let r := actCB ctx.seneca args
  completesPromise r.1 r.2

/-- `prior(args)`: `seneca.prior(args, completesPromise(resolve, reject))`
where `seneca = this._seneca`.  The native `prior`'s behaviour is a
parameter `priorCB` giving the `(err, res)` pair it passes on. -/
def prior (ctx : SenecaPromisified) (priorCB : NativeSeneca → JSVal → JSVal × JSVal)
    (args : JSVal) : PromiseResult :=
  let r := priorCB ctx.seneca args
  completesPromise r.1 r.2

/-- What one invocation of the wrapped handler built by `add` does: which
wrapped context was supplied as the handler's `this`, which value as its
first parameter, which context as its second parameter, and how the
delegate's completion continuation ended up being used. -/
structure HandlerInvocation where
  thisArg : SenecaPromisified
  argsArg : JSVal
  senecaArg : SenecaPromisified
  outcome : HandlerOutcome
deriving DecidableEq

/-- The `wrappedHandler` closure built by `add`:
`function(args, done) { const seneca = this; const wrapped = create(seneca);
wrapped.prior = prior; const res = handler.call(wrapped, args, wrapped);
handleResult(res, done); }`.  The delegate invokes it with its native
context as `this`; the user handler is modelled as a function of its
`this`, its `args` parameter and its `seneca` parameter. -/
def wrappedHandler (handler : SenecaPromisified → JSVal → SenecaPromisified → JSVal)
    (nativeCtx : NativeSeneca) (args : JSVal) : HandlerInvocation :=
  let wrapped := create nativeCtx
  let res := handler wrapped args wrapped
  { thisArg := wrapped, argsArg := args, senecaArg := wrapped,
    outcome := _handleResult res }

/-! ### `use` (plugin loading) -/

/-- The shape of an argument passed to `use`: a string plugin name, a plugin
initializer function (identified opaquely), or any other value such as a
config object. -/
inductive UseArgV where
  | strA (s : String)
  | fnA (n : Nat)
  | objA (n : Nat)
deriving DecidableEq

/-- `typeof args[0] === 'string'`. -/
def UseArgV.isStr : UseArgV → Bool
  | .strA _ => true
  | _ => false

/-- An argument as the delegate's `use` receives it: either one of the
original arguments forwarded unchanged, or the `loader` closure built
around a plugin value. -/
inductive UseCallArg where
  | orig (a : UseArgV)
  | loaderOf (a : UseArgV)
deriving DecidableEq

/-- `use(...args)` from the core source: if `args[0]` is a string, forward
all arguments verbatim (`this._seneca.use.apply(this._seneca, args)`).
Otherwise build the `loader` around `plugin = args[0]` and call
`this._seneca.use(args[0], loader)` when `args.length > 1`, else
`this._seneca.use(loader)`.  The result lists the arguments the delegate's
`use` receives. -/
def use (first : UseArgV) (rest : List UseArgV) : List UseCallArg :=
  if first.isStr then (first :: rest).map UseCallArg.orig
  else if rest.length > 0 then [UseCallArg.orig first, UseCallArg.loaderOf first]
  else [UseCallArg.loaderOf first]

/-- What happens when the delegate invokes a plugin initializer: which value
it receives as `this` and which as its argument. -/
structure PluginInvocation where
  thisArg : SenecaPromisified
  arg : SenecaPromisified
deriving DecidableEq

/-- The `loader` closure built by `use`: `function() { const seneca = this;
const wrapped = create(seneca); plugin.call(wrapped, wrapped); }`.  The
delegate invokes it with a native context as `this`. -/
def loaderRun (nativeCtx : NativeSeneca) : PluginInvocation :=
  let wrapped := create nativeCtx
  { thisArg := wrapped, arg := wrapped }

/-! ### Entity wrapper -/

/-- A JavaScript object's enumerable own data properties, in enumeration
order. -/
abbrev Obj := List (String × JSVal)

/-- `k[k.length - 1] === '$'` — the reserved-marker test used by the
entity field-copy loops (false on the empty name, as in JS). -/
def isReservedKey (k : String) : Bool :=
  k.data.getLast?.any (fun c => c = '$')

/-- `k[0] === '_'` — the private-prefix test used when copying wrapper
fields to the delegate record (false on the empty name, as in JS). -/
def isPrivateKey (k : String) : Bool :=
  k.data.head?.any (fun c => c = '_')

/-- Property lookup on an object. -/
def lookupKey : Obj → String → Option JSVal
  | [], _ => none
  | (k', v) :: t, k => if k' = k then some v else lookupKey t k

/-- `delete o[k]`. -/
def deleteKey (o : Obj) (k : String) : Obj :=
  o.filter (fun kv => decide (kv.1 ≠ k))

/-- Whether `k` is a property of `o`. -/
def hasKey (o : Obj) (k : String) : Bool :=
  o.any (fun kv => decide (kv.1 = k))

/-- `o[k] = v`: overwrite in place when the property exists, otherwise
append it (JS enumeration order for a fresh property). -/
def setKey (o : Obj) (k : String) (v : JSVal) : Obj :=
  if hasKey o k then o.map (fun kv => if kv.1 = k then (k, v) else kv)
  else o ++ [(k, v)]

/-- The entries `_forDataInEnt` visits: enumerable fields of the delegate
record whose name does not end in the reserved marker. -/
def entDataEntries (e : Obj) : Obj :=
  e.filter (fun kv => !(isReservedKey kv.1))

/-- The entries `_forDataInWrapper` visits: enumerable fields of the
wrapper whose name neither ends in the reserved marker nor starts with the
private prefix. -/
def wrapperDataEntries (w : Obj) : Obj :=
  w.filter (fun kv => !(isReservedKey kv.1) && !(isPrivateKey kv.1))

/-- `_clearEnt()`: `this._forDataInEnt((_, k) => { delete this._entity[k]; })`. -/
def _clearEnt (e : Obj) : Obj :=
  (entDataEntries e).foldl (fun acc kv => deleteKey acc kv.1) e

/-- `_fromWrapperToEnt()`: `this._forDataInWrapper((val, k) =>
{ this._entity[k] = val; })`, applied to wrapper fields `w` and record `e`. -/
def _fromWrapperToEnt (w e : Obj) : Obj :=
  (wrapperDataEntries w).foldl (fun acc kv => setKey acc kv.1 kv.2) e

/-- `_fromEntToWrapper()`: `this._forDataInEnt((val, k) =>
{ this[k] = val; })`, applied to record `e` and wrapper fields `w`. -/
def _fromEntToWrapper (e w : Obj) : Obj :=
  (entDataEntries e).foldl (fun acc kv => setKey acc kv.1 kv.2) w

/-- State of a `SenecaEntityWrapper`: its own enumerable fields and the
delegate record `_entity` (stored non-enumerably). -/
structure WrapperState where
  fields : Obj
  entity : Obj
deriving DecidableEq

/-- `new SenecaEntityWrapper(ent)` followed by `wrapped._fromEntToWrapper()`,
as the `_callWithOpt` completion continuation builds it: a fresh wrapper
with no own fields, populated from the record's non-reserved fields. -/
def mkWrappedEnt (e : Obj) : WrapperState :=
  { fields := _fromEntToWrapper e [], entity := e }

/-- The call `_callWithOpt` issues to the delegate record: which persistence
method, whether an explicit payload was passed, and the state the record
holds at the moment of the call. -/
inductive DelegateCall where
  | withPayload (method : String) (payload : Obj) (entityState : Obj)
  | noPayload (method : String) (entityState : Obj)
deriving DecidableEq

/-- The persistence method name of a delegate call. -/
def DelegateCall.methodName : DelegateCall → String
  | .withPayload m _ _ => m
  | .noPayload m _ => m

/-- The explicit payload of a delegate call, when one was passed. -/
def DelegateCall.payload : DelegateCall → Option Obj
  | .withPayload _ p _ => some p
  | .noPayload _ _ => none

/-- The delegate record's field state at the moment of the call. -/
def DelegateCall.entityState : DelegateCall → Obj
  | .withPayload _ _ e => e
  | .noPayload _ e => e

/-- `_callWithOpt(opt, prop)`: when `opt !== undefined` the delegate method
is called as `this._entity[prop](opt, onComplete)` with the record
untouched; otherwise the record is first cleared (`_clearEnt`) and
resynchronized from the wrapper (`_fromWrapperToEnt`) and only then
`this._entity[prop](onComplete)` is called.  Returns the delegate call and
the wrapper state after the synchronization. -/
def _callWithOpt (wr : WrapperState) (opt : Option Obj) (prop : String) :
    DelegateCall × WrapperState :=
  match opt with
  | some o => (.withPayload prop o wr.entity, wr)
  | none =>
      let synced := _fromWrapperToEnt wr.fields (_clearEnt wr.entity)
      (.noPayload prop synced, { wr with entity := synced })

/-- `save$(obj)`: `return this._callWithOpt(obj, 'save$');`. -/
def save' (wr : WrapperState) (obj : Option Obj) : DelegateCall × WrapperState :=
  _callWithOpt wr obj "save$"

/-- `remove$(query)`: `return this._callWithOpt(query, 'remove$');`. -/
def remove' (wr : WrapperState) (query : Option Obj) : DelegateCall × WrapperState :=
  _callWithOpt wr query "remove$"

/-- How the promise returned by an entity persistence method settles.
`resolvedVoid` stands for resolution with no value (undefined). -/
inductive EntSettle where
  | resolvedWith (w : WrapperState)
  | resolvedVoid
  | rejectedWith (e : JSVal)
deriving DecidableEq

/-- The `onComplete` continuation inside `_callWithOpt`:
`(err, ent) => { if(err) return reject(err);
const wrapped = new SenecaEntityWrapper(ent); wrapped._fromEntToWrapper();
resolve(wrapped); }`. -/
def entOnComplete (err : JSVal) (ent : Obj) : EntSettle :=
  if truthy err then .rejectedWith err else .resolvedWith (mkWrappedEnt ent)

/-- The reserved accessor names patched onto the entity wrapper prototype. -/
def inheritsSymbolics : List String :=
  ["fields", "is", "canon", "native", "data", "clone"]

/-- Record of one reserved-accessor call: the delegate method invoked, the
arguments forwarded, the value the delegate operation returned, and the
value the wrapper accessor itself returned. -/
structure SymbolicCall where
  method : String
  args : List JSVal
  delegateReturned : JSVal
  accessorReturned : JSVal
deriving DecidableEq

/-- The prototype method installed for each name in `inheritsSymbolics`:
`function() { this._entity[symbolicKey].apply(this._entity, arguments); }`.
The delegate operation's behaviour is the parameter `entityOp`; the body
has no return statement, so the accessor returns undefined. -/
def symbolicAccessor (entityOp : List JSVal → JSVal) (key : String)
    (args : List JSVal) : SymbolicCall :=
  { method := key ++ "$", args := args,
    delegateReturned := entityOp args, accessorReturned := JSVal.undefined }

/-! ### Object-model lemmas -/

theorem lookupKey_eq_none_iff (l : Obj) (k : String) :
    lookupKey l k = none ↔ k ∉ l.map Prod.fst := by
  induction l with
  | nil => simp [lookupKey]
  | cons a t ih =>
      obtain ⟨a1, a2⟩ := a
      by_cases h : a1 = k
      · subst h; simp [lookupKey]
      · simp [lookupKey, h, ih, Ne.symm h]

theorem lookupKey_cons (k1 : String) (v : JSVal) (t : Obj) (k : String) :
    lookupKey ((k1, v) :: t) k = if k1 = k then some v else lookupKey t k := rfl

theorem hasKey_cons (k1 : String) (v : JSVal) (t : Obj) (k : String) :
    hasKey ((k1, v) :: t) k = (decide (k1 = k) || hasKey t k) := rfl

theorem hasKey_iff_mem (l : Obj) (k : String) :
    hasKey l k = true ↔ k ∈ l.map Prod.fst := by
  induction l with
  | nil => simp [hasKey]
  | cons a t ih =>
      obtain ⟨a1, a2⟩ := a
      rw [hasKey_cons]
      simp only [List.map_cons, List.mem_cons, Bool.or_eq_true, decide_eq_true_eq, ih]
      exact or_congr ⟨Eq.symm, Eq.symm⟩ Iff.rfl

theorem lookupKey_filter_pos (p : String → Bool) (l : Obj) (k : String)
    (hp : p k = true) :
    lookupKey (l.filter (fun kv => p kv.1)) k = lookupKey l k := by
  induction l with
  | nil => rfl
  | cons a t ih =>
      obtain ⟨a1, a2⟩ := a
      by_cases h : a1 = k
      · subst h; simp [List.filter_cons, hp, lookupKey]
      · by_cases hpa : p a1
        · simp [List.filter_cons, hpa, lookupKey, h, ih]
        · simp [List.filter_cons, hpa, lookupKey, h, ih]

theorem lookupKey_filter_neg (p : String → Bool) (l : Obj) (k : String)
    (hp : p k = false) :
    lookupKey (l.filter (fun kv => p kv.1)) k = none := by
  induction l with
  | nil => rfl
  | cons a t ih =>
      obtain ⟨a1, a2⟩ := a
      by_cases hpa : p a1
      · have h : a1 ≠ k := by intro he; rw [he, hp] at hpa; exact Bool.noConfusion hpa
        simp [List.filter_cons, hpa, lookupKey, h, ih]
      · simp [List.filter_cons, hpa, ih]

theorem lookupKey_deleteKey (o : Obj) (k k' : String) :
    lookupKey (deleteKey o k) k' = if k' = k then none else lookupKey o k' := by
  by_cases h : k' = k
  · subst h
    simpa [deleteKey] using
      lookupKey_filter_neg (fun s => decide (s ≠ k')) o k' (by simp)
  · simpa [deleteKey, h] using
      lookupKey_filter_pos (fun s => decide (s ≠ k)) o k' (by simp [h])

theorem lookupKey_foldl_delete (l : List (String × JSVal)) (init : Obj) (k : String) :
    lookupKey (l.foldl (fun acc kv => deleteKey acc kv.1) init) k =
      if (lookupKey l k).isSome then none else lookupKey init k := by
  induction l generalizing init with
  | nil => simp [lookupKey]
  | cons a t ih =>
      obtain ⟨a1, a2⟩ := a
      rw [List.foldl_cons, ih, lookupKey_deleteKey]
      by_cases h : a1 = k
      · subst h; simp [lookupKey]
      · simp [lookupKey, h, Ne.symm h]

theorem lookupKey_map_set (o : Obj) (k : String) (v : JSVal) (k' : String) :
    lookupKey (o.map (fun kv => if kv.1 = k then (k, v) else kv)) k' =
      if k' = k then (if hasKey o k then some v else none) else lookupKey o k' := by
  induction o with
  | nil => by_cases h : k' = k <;> simp [lookupKey, hasKey, h]
  | cons a t ih =>
      obtain ⟨a1, a2⟩ := a
      rw [List.map_cons]
      by_cases hak : a1 = k
      · subst hak
        have hh : (if ((a1, a2) : String × JSVal).1 = a1 then (a1, v) else (a1, a2))
            = (a1, v) := if_pos rfl
        rw [hh, lookupKey_cons, lookupKey_cons, hasKey_cons, ih]
        by_cases h : a1 = k'
        · subst h; simp
        · have hne : ¬ k' = a1 := fun hc => h hc.symm
          simp [h, hne]
      · have hh : (if ((a1, a2) : String × JSVal).1 = k then (k, v) else (a1, a2))
            = (a1, a2) := if_neg hak
        rw [hh, lookupKey_cons, lookupKey_cons, hasKey_cons, ih]
        by_cases h : a1 = k'
        · have hkk : ¬ k' = k := fun hc => hak (h.trans hc)
          simp [h, hkk]
        · by_cases hkk : k' = k <;> simp [h, hkk, hak]

theorem lookupKey_append_single (o : Obj) (k : String) (v : JSVal) (k' : String) :
    lookupKey (o ++ [(k, v)]) k' =
      if (lookupKey o k').isSome then lookupKey o k'
      else if k' = k then some v else none := by
  induction o with
  | nil =>
      by_cases h : k' = k
      · subst h; simp [lookupKey]
      · have hne : ¬ k = k' := fun hc => h hc.symm
        simp [lookupKey, h, hne]
  | cons a t ih =>
      obtain ⟨a1, a2⟩ := a
      rw [List.cons_append, lookupKey_cons, lookupKey_cons]
      by_cases h : a1 = k'
      · simp [h]
      · simp [h, ih]

theorem lookupKey_hasKey_false (o : Obj) (k : String) (h : hasKey o k = false) :
    lookupKey o k = none := by
  rw [lookupKey_eq_none_iff]
  intro hm
  rw [← hasKey_iff_mem] at hm
  rw [h] at hm
  exact Bool.noConfusion hm

theorem lookupKey_setKey (o : Obj) (k : String) (v : JSVal) (k' : String) :
    lookupKey (setKey o k v) k' = if k' = k then some v else lookupKey o k' := by
  unfold setKey
  by_cases h : hasKey o k
  · rw [if_pos h, lookupKey_map_set, h]
    by_cases hk : k' = k <;> simp [hk]
  · rw [if_neg h, lookupKey_append_single]
    by_cases hk : k' = k
    · subst hk
      rw [lookupKey_hasKey_false o k' (Bool.eq_false_iff.mpr h)]
      simp
    · simp only [if_neg hk]
      cases hl : lookupKey o k' <;> simp [hl]

theorem lookupKey_foldl_set (l : List (String × JSVal)) (init : Obj) (k : String)
    (hl : (l.map Prod.fst).Nodup) :
    lookupKey (l.foldl (fun acc kv => setKey acc kv.1 kv.2) init) k =
      if (lookupKey l k).isSome then lookupKey l k else lookupKey init k := by
  induction l generalizing init with
  | nil => simp [lookupKey]
  | cons a t ih =>
      obtain ⟨a1, a2⟩ := a
      rw [List.map_cons, List.nodup_cons] at hl
      rw [List.foldl_cons, ih _ hl.2]
      by_cases h : a1 = k
      · subst h
        have ht : lookupKey t a1 = none := (lookupKey_eq_none_iff t a1).mpr hl.1
        simp [lookupKey, ht, lookupKey_setKey]
      · simp [lookupKey, h, Ne.symm h, lookupKey_setKey]

theorem lookupKey_clearEnt (e : Obj) (k : String) (hk : isReservedKey k = false) :
    lookupKey (_clearEnt e) k = none := by
  have he : lookupKey (entDataEntries e) k = lookupKey e k :=
    lookupKey_filter_pos (fun s => !(isReservedKey s)) e k (by simp [hk])
  unfold _clearEnt
  rw [lookupKey_foldl_delete, he]
  cases hl : lookupKey e k <;> simp [hl]

theorem lookupKey_clearEnt_reserved (e : Obj) (k : String)
    (hk : isReservedKey k = true) :
    lookupKey (_clearEnt e) k = lookupKey e k := by
  have he : lookupKey (entDataEntries e) k = none :=
    lookupKey_filter_neg (fun s => !(isReservedKey s)) e k (by simp [hk])
  unfold _clearEnt
  rw [lookupKey_foldl_delete, he]
  rfl

theorem lookupKey_wrapperData_pos (w : Obj) (k : String)
    (hk : isReservedKey k = false) (hp : isPrivateKey k = false) :
    lookupKey (wrapperDataEntries w) k = lookupKey w k :=
  lookupKey_filter_pos (fun s => !(isReservedKey s) && !(isPrivateKey s)) w k
    (by simp [hk, hp])

theorem lookupKey_wrapperData_priv (w : Obj) (k : String)
    (hp : isPrivateKey k = true) :
    lookupKey (wrapperDataEntries w) k = none :=
  lookupKey_filter_neg (fun s => !(isReservedKey s) && !(isPrivateKey s)) w k
    (by simp [hp])

theorem nodup_keys_filter (p : String × JSVal → Bool) (l : Obj)
    (hl : (l.map Prod.fst).Nodup) : ((l.filter p).map Prod.fst).Nodup :=
  hl.sublist ((l.filter_sublist).map Prod.fst)

theorem keys_map_set (o : Obj) (k : String) (v : JSVal) :
    (o.map (fun kv => if kv.1 = k then (k, v) else kv)).map Prod.fst
      = o.map Prod.fst := by
  induction o with
  | nil => rfl
  | cons a t ih =>
      obtain ⟨a1, a2⟩ := a
      by_cases h : a1 = k
      · subst h
        have hh : (if ((a1, a2) : String × JSVal).1 = a1 then (a1, v) else (a1, a2))
            = (a1, v) := if_pos rfl
        simp [hh, ih]
      · have hh : (if ((a1, a2) : String × JSVal).1 = k then (k, v) else (a1, a2))
            = (a1, a2) := if_neg h
        simp [hh, ih]

theorem nodup_keys_setKey (o : Obj) (k : String) (v : JSVal)
    (h : (o.map Prod.fst).Nodup) : ((setKey o k v).map Prod.fst).Nodup := by
  unfold setKey
  by_cases hk : hasKey o k
  · rw [if_pos hk, keys_map_set]; exact h
  · rw [if_neg hk, List.map_append]
    have hm : k ∉ o.map Prod.fst := fun hmem => hk ((hasKey_iff_mem o k).mpr hmem)
    simp [List.nodup_append, h, hm]

theorem nodup_keys_foldl_set (l : List (String × JSVal)) (init : Obj)
    (h : (init.map Prod.fst).Nodup) :
    ((l.foldl (fun acc kv => setKey acc kv.1 kv.2) init).map Prod.fst).Nodup := by
  induction l generalizing init with
  | nil => exact h
  | cons a t ih => exact ih _ (nodup_keys_setKey _ _ _ h)

/-- After `_clearEnt` and `_fromWrapperToEnt`, each non-reserved field of the
delegate record equals the wrapper's field of the same name when that field
is non-private, and is absent when it is private. -/
theorem lookupKey_synced (w e : Obj) (hw : (w.map Prod.fst).Nodup) (k : String)
    (hk : isReservedKey k = false) :
    lookupKey (_fromWrapperToEnt w (_clearEnt e)) k =
      if isPrivateKey k then none else lookupKey w k := by
  unfold _fromWrapperToEnt
  rw [lookupKey_foldl_set (wrapperDataEntries w) (_clearEnt e) k
    (nodup_keys_filter _ _ hw), lookupKey_clearEnt e k hk]
  by_cases hp : isPrivateKey k
  · rw [lookupKey_wrapperData_priv w k hp]
    simp [hp]
  · rw [lookupKey_wrapperData_pos w k hk (Bool.eq_false_iff.mpr hp)]
    cases hl : lookupKey w k <;> simp [hp, hl]

theorem nodup_mkWrappedEnt_fields (e : Obj) :
    ((mkWrappedEnt e).fields.map Prod.fst).Nodup := by
  show ((_fromEntToWrapper e []).map Prod.fst).Nodup
  unfold _fromEntToWrapper
  exact nodup_keys_foldl_set _ _ (by simp)

theorem ne_thenableF_self (v : JSVal) : JSVal.thenableF v ≠ v := by
  induction v <;> intro h <;> simp_all

/-! ### Claim theorems -/

/-- Counterexample to claim C1 as stated: `completesPromise` tests the first
argument for truthiness, not for being non-null, so the non-null but falsy
first argument `false` resolves the promise instead of rejecting it. -/
theorem C1_bridge_counterexample :
    (JSVal.bool false ≠ JSVal.null) ∧
    completesPromise (JSVal.bool false) (JSVal.num 7)
      = PromiseResult.resolvedWith (JSVal.num 7) ∧
    completesPromise (JSVal.bool false) (JSVal.num 7)
      ≠ PromiseResult.rejectedWith (JSVal.bool false) := by
  decide

/-- Claim C1 amended: every bridged continuation produced by
`completesPromise` rejects the associated promise with exactly `err` when
called with a truthy first argument `err`, and resolves it with exactly the
second argument when called with a falsy first argument (null included). -/
theorem C1_bridge_truthy (err res : JSVal) :
    (truthy err = true →
      completesPromise err res = PromiseResult.rejectedWith err) ∧
    (truthy err = false →
      completesPromise err res = PromiseResult.resolvedWith res) := by
  constructor <;> intro h <;> simp [completesPromise, h]

/-- Witness for C1: a concrete truthy error rejects, by `C1_bridge_truthy`. -/
theorem C1_bridge_truthy_witness :
    truthy (JSVal.error "boom") = true ∧
    completesPromise (JSVal.error "boom") (JSVal.num 1)
      = PromiseResult.rejectedWith (JSVal.error "boom") :=
  ⟨by decide, (C1_bridge_truthy (JSVal.error "boom") (JSVal.num 1)).1 (by decide)⟩

/-- Claim C2 (code bug): a handler returning an Error value hits the
`done(err)` branch of `_handleResult`, which references the out-of-scope
identifier `err` and throws a ReferenceError, so `done` is never called
with `(err, undefined)` as documented; the thenable and plain-value
branches behave as claimed. -/
theorem C2_error_branch_bug :
    _handleResult (JSVal.error "boom") = HandlerOutcome.referenceError ∧
    (wrappedHandler (fun _ _ _ => JSVal.error "boom") ⟨0⟩ JSVal.null).outcome
      = HandlerOutcome.referenceError ∧
    HandlerOutcome.referenceError
      ≠ HandlerOutcome.doneCalled (JSVal.error "boom") JSVal.undefined ∧
    _handleResult (JSVal.num 5) = HandlerOutcome.doneCalled JSVal.null (JSVal.num 5) ∧
    _handleResult (JSVal.thenableF (JSVal.num 6))
      = HandlerOutcome.doneCalled JSVal.null (JSVal.num 6) ∧
    _handleResult (JSVal.thenableR (JSVal.error "bad"))
      = HandlerOutcome.doneCalled (JSVal.error "bad") JSVal.undefined := by
  decide

/-- Claim C3: `save$()` with no arguments issues the delegate save call with
no explicit payload, and at the moment of that call every non-reserved
field of the delegate record equals the wrapper's identically-named
non-private field (and is absent when the wrapper's field is private or
missing). -/
theorem C3_save_noargs_syncs (wr : WrapperState)
    (hw : (wr.fields.map Prod.fst).Nodup) (k : String)
    (hk : isReservedKey k = false) :
    ((save' wr none).1).payload = none ∧
    ((save' wr none).1).methodName = "save$" ∧
    lookupKey ((save' wr none).1).entityState k =
      (if isPrivateKey k then none else lookupKey wr.fields k) := by
  refine ⟨rfl, rfl, ?_⟩
  show lookupKey (_fromWrapperToEnt wr.fields (_clearEnt wr.entity)) k = _
  exact lookupKey_synced wr.fields wr.entity hw k hk

/-- Witness for C3 at a concrete wrapper and field name. -/
theorem C3_save_noargs_syncs_witness :
    isReservedKey "id" = false ∧
    lookupKey ((save' ⟨[("id", JSVal.num 1), ("_p", JSVal.num 2)],
        [("old", JSVal.num 4)]⟩ none).1).entityState "id" =
      (if isPrivateKey "id" then none
       else lookupKey [("id", JSVal.num 1), ("_p", JSVal.num 2)] "id") :=
  ⟨by decide,
   (C3_save_noargs_syncs ⟨[("id", JSVal.num 1), ("_p", JSVal.num 2)],
      [("old", JSVal.num 4)]⟩ (by decide) "id" (by decide)).2.2⟩

/-- Claim C4: `save$(obj)` with a defined override object forwards `obj`
unchanged as the delegate save call's payload, leaves the delegate record's
state and the wrapper untouched, and the issued call does not depend on the
wrapper's own fields. -/
theorem C4_save_override (wr : WrapperState) (o : Obj) :
    (save' wr (some o)).1 = DelegateCall.withPayload "save$" o wr.entity ∧
    (save' wr (some o)).2 = wr ∧
    ∀ f' : Obj, (save' { fields := f', entity := wr.entity } (some o)).1
      = (save' wr (some o)).1 :=
  ⟨rfl, rfl, fun _ => rfl⟩

/-- Counterexample to claim C5 as stated: a delegate record whose only field
is the non-reserved name `_x` puts `_x` on the wrapper, but `save$()` skips
private-prefixed wrapper fields, so the persisted record lacks `_x` while
the wrapper's pre-save fields contain it. -/
theorem C5_roundtrip_counterexample :
    isReservedKey "_x" = false ∧
    lookupKey (mkWrappedEnt [("_x", JSVal.num 1)]).fields "_x"
      = some (JSVal.num 1) ∧
    lookupKey ((save' (mkWrappedEnt [("_x", JSVal.num 1)]) none).1).entityState "_x"
      = none := by
  decide

/-- Claim C5 amended: wrapping a delegate record, copying its non-reserved
fields onto the wrapper, and calling `save$()` persists a record whose
non-reserved, non-private fields equal the wrapper's pre-save
non-reserved, non-private fields. -/
theorem C5_roundtrip_amended (e0 : Obj) (k : String)
    (hk : isReservedKey k = false) (hp : isPrivateKey k = false) :
    lookupKey ((save' (mkWrappedEnt e0) none).1).entityState k =
      lookupKey (mkWrappedEnt e0).fields k := by
  show lookupKey
    (_fromWrapperToEnt (mkWrappedEnt e0).fields (_clearEnt (mkWrappedEnt e0).entity)) k = _
  rw [lookupKey_synced _ _ (nodup_mkWrappedEnt_fields e0) k hk, if_neg (by simp [hp])]

/-- Witness for C5 amended at a concrete record and field name. -/
theorem C5_roundtrip_amended_witness :
    isReservedKey "id" = false ∧ isPrivateKey "id" = false ∧
    lookupKey ((save' (mkWrappedEnt [("id", JSVal.num 1)]) none).1).entityState "id" =
      lookupKey (mkWrappedEnt [("id", JSVal.num 1)]).fields "id" :=
  ⟨by decide, by decide,
   C5_roundtrip_amended [("id", JSVal.num 1)] "id" (by decide) (by decide)⟩

/-- Counterexample to claim C6 as stated: when the delegate's continuation
signals success, the promise resolves with a freshly wrapped entity, not
with no value. -/
theorem C6_remove_resolution_counterexample :
    truthy JSVal.null = false ∧
    entOnComplete JSVal.null [("id", JSVal.num 1)]
      = EntSettle.resolvedWith (mkWrappedEnt [("id", JSVal.num 1)]) ∧
    entOnComplete JSVal.null [("id", JSVal.num 1)] ≠ EntSettle.resolvedVoid := by
  decide

/-- Claim C6 amended: `remove$(query)` forwards the query unchanged (or,
when omitted, first synchronizes the delegate record to the wrapper's
non-reserved, non-private fields and passes no payload); the promise
rejects with the delegate's error on a truthy error and otherwise resolves
with a new wrapped entity built from the continuation's result value. -/
theorem C6_remove_amended (wr : WrapperState) (q ent : Obj) (err : JSVal)
    (hw : (wr.fields.map Prod.fst).Nodup) (k : String)
    (hk : isReservedKey k = false) (herr : truthy err = true) :
    (remove' wr (some q)).1 = DelegateCall.withPayload "remove$" q wr.entity ∧
    lookupKey ((remove' wr none).1).entityState k =
      (if isPrivateKey k then none else lookupKey wr.fields k) ∧
    entOnComplete JSVal.null ent = EntSettle.resolvedWith (mkWrappedEnt ent) ∧
    entOnComplete err ent = EntSettle.rejectedWith err := by
  refine ⟨rfl, ?_, rfl, ?_⟩
  · show lookupKey (_fromWrapperToEnt wr.fields (_clearEnt wr.entity)) k = _
    exact lookupKey_synced wr.fields wr.entity hw k hk
  · simp [entOnComplete, herr]

/-- Witness for C6 amended at concrete inputs. -/
theorem C6_remove_amended_witness :
    truthy (JSVal.error "gone") = true ∧ isReservedKey "a" = false ∧
    entOnComplete (JSVal.error "gone") [] = EntSettle.rejectedWith (JSVal.error "gone") :=
  ⟨by decide, by decide,
   (C6_remove_amended ⟨[("a", JSVal.num 1)], []⟩ [("b", JSVal.num 2)] []
      (JSVal.error "gone") (by decide) "a" (by decide) (by decide)).2.2.2⟩

/-- Claim C7 (code bug): each reserved accessor forwards the call with the
same arguments to the delegate record's identically-named operation, but
its body has no return statement, so it returns undefined instead of the
delegate operation's result, contradicting the class doc `these methods all
work the exact same way as the original seneca entity`. -/
theorem C7_symbolic_drops_result :
    "fields" ∈ inheritsSymbolics ∧
    (symbolicAccessor (fun _ => JSVal.str "id") "fields" [JSVal.num 0]).method
      = "fields$" ∧
    (symbolicAccessor (fun _ => JSVal.str "id") "fields" [JSVal.num 0]).args
      = [JSVal.num 0] ∧
    (symbolicAccessor (fun _ => JSVal.str "id") "fields" [JSVal.num 0]).delegateReturned
      = JSVal.str "id" ∧
    (symbolicAccessor (fun _ => JSVal.str "id") "fields" [JSVal.num 0]).accessorReturned
      = JSVal.undefined ∧
    JSVal.str "id" ≠ JSVal.undefined := by
  decide

/-- Claim C8: each invocation of a handler registered via `add` constructs
the wrapped handler context from that invocation's own native context,
passes it to the user handler as both second parameter and execution
context together with the invocation's arguments, and that context's
`prior` is the bridged call to the same native context's `prior`. -/
theorem C8_handler_context
    (handler : SenecaPromisified → JSVal → SenecaPromisified → JSVal)
    (nativeCtx : NativeSeneca) (args : JSVal)
    (priorCB : NativeSeneca → JSVal → JSVal × JSVal) (pargs : JSVal) :
    (wrappedHandler handler nativeCtx args).thisArg = create nativeCtx ∧
    (wrappedHandler handler nativeCtx args).senecaArg
      = (wrappedHandler handler nativeCtx args).thisArg ∧
    (wrappedHandler handler nativeCtx args).argsArg = args ∧
    (wrappedHandler handler nativeCtx args).thisArg.seneca = nativeCtx ∧
    prior (wrappedHandler handler nativeCtx args).thisArg priorCB pargs
      = completesPromise (priorCB nativeCtx pargs).1 (priorCB nativeCtx pargs).2 :=
  ⟨rfl, rfl, rfl, rfl, rfl⟩

/-- Counterexample to claim C9 as stated: calling `use` with a non-string
initializer plus one further argument passes the original initializer,
unreplaced, as the delegate's first argument (the loader comes second). -/
theorem C9_use_counterexample :
    use (UseArgV.fnA 0) [UseArgV.objA 1]
      = [UseCallArg.orig (UseArgV.fnA 0), UseCallArg.loaderOf (UseArgV.fnA 0)] ∧
    (use (UseArgV.fnA 0) [UseArgV.objA 1]).head?
      ≠ some (UseCallArg.loaderOf (UseArgV.fnA 0)) := by
  decide

/-- Claim C9 amended: a string first argument forwards all arguments
unchanged; a single non-string argument is replaced by the loader; with
further arguments the delegate receives the original first argument
followed by the loader; and when the delegate invokes the loader with a
native context, the initializer runs with a fresh wrapped context as both
its argument and its execution context. -/
theorem C9_use_amended (s : String) (rest rest2 : List UseArgV) (a : UseArgV)
    (nativeCtx : NativeSeneca) (ha : a.isStr = false) (h2 : rest2 ≠ []) :
    use (UseArgV.strA s) rest = (UseArgV.strA s :: rest).map UseCallArg.orig ∧
    use a [] = [UseCallArg.loaderOf a] ∧
    use a rest2 = [UseCallArg.orig a, UseCallArg.loaderOf a] ∧
    loaderRun nativeCtx = { thisArg := create nativeCtx, arg := create nativeCtx } := by
  refine ⟨rfl, ?_, ?_, rfl⟩
  · simp [use, ha]
  · have hlen : rest2.length > 0 := List.length_pos.mpr h2
    simp [use, ha, hlen]

/-- Witness for C9 amended: the single-argument non-string case at concrete
inputs. -/
theorem C9_use_amended_witness :
    (UseArgV.fnA 0).isStr = false ∧
    use (UseArgV.fnA 0) [] = [UseCallArg.loaderOf (UseArgV.fnA 0)] :=
  ⟨by decide,
   (C9_use_amended "p" [] [UseArgV.objA 1] (UseArgV.fnA 0) ⟨0⟩
      (by decide) (by decide)).2.1⟩

/-- Claim C10: `_handleResult` reads `.then` with no null guard, so a
handler returning null or undefined makes the wrapped handler throw a
TypeError instead of signalling success; the `done(null, res)` success
branch fires exactly for non-null, non-undefined, non-thenable, non-Error
results. -/
theorem C10_handleResult_null_guard (res : JSVal) :
    (_handleResult JSVal.null = HandlerOutcome.typeError) ∧
    (_handleResult JSVal.undefined = HandlerOutcome.typeError) ∧
    (res ≠ JSVal.null → res ≠ JSVal.undefined → isThenable res = false →
      isError res = false →
      _handleResult res = HandlerOutcome.doneCalled JSVal.null res) ∧
    (_handleResult res = HandlerOutcome.doneCalled JSVal.null res →
      res ≠ JSVal.null ∧ res ≠ JSVal.undefined ∧ isThenable res = false ∧
        isError res = false) := by
  refine ⟨rfl, rfl, ?_, ?_⟩
  · intro h1 h2 h3 h4
    cases res <;> simp_all [_handleResult, isThenable, isError]
  · intro h
    cases res with
    | null => simp [_handleResult] at h
    | undefined => simp [_handleResult] at h
    | error m => simp [_handleResult] at h
    | thenableF v =>
        have hv : v = JSVal.thenableF v := by simpa [_handleResult] using h
        exact absurd hv.symm (ne_thenableF_self v)
    | thenableR e => simp [_handleResult] at h
    | bool b => exact ⟨by simp, by simp, by simp [isThenable], by simp [isError]⟩
    | num n => exact ⟨by simp, by simp, by simp [isThenable], by simp [isError]⟩
    | str s => exact ⟨by simp, by simp, by simp [isThenable], by simp [isError]⟩
    | plainObj i => exact ⟨by simp, by simp, by simp [isThenable], by simp [isError]⟩

/-- Witness for C10: the success branch at a concrete plain value, by
`C10_handleResult_null_guard`. -/
theorem C10_handleResult_null_guard_witness :
    _handleResult (JSVal.num 5) = HandlerOutcome.doneCalled JSVal.null (JSVal.num 5) :=
  (C10_handleResult_null_guard (JSVal.num 5)).2.2.1
    (by decide) (by decide) (by decide) (by decide)

end SenecaP
